import Mathlib

/-!
# Telegram Desktop: settings block widget and peer context menu

A shallow embedding of two presentation-layer units of the repository:

* `settings/settings_block_widget.cpp` : the layout arithmetic of
  `Settings::BlockWidget` (`contentTop`, `resizeGetHeight`, `getMargins`,
  and the resize done by the constructor's content-height subscription);
* `window/window_peer_menu.cpp` : the menu builder `Filler`, the handlers it
  binds to the entries (`pinToggle`, the block toggle, `ClearHistoryHandler`,
  `DeleteAndLeaveHandler`), `FindWastedPin`, `PeerMenuDeleteContact` and
  `FillPeerMenu`.

Stateful code is written as explicit state passing over a `World` record; every
call into a service that lives outside the two files (dialog boxes, network
requests, `MainWidget`, `ApiWrap`) is recorded, in program order, in the
world's effect trace.
-/

/-! ## Part 1. `Settings::BlockWidget` -/

namespace Settings

/-- C++ `int` arithmetic: the value is reduced to the 32-bit two's-complement
range `[-2^31, 2^31)`. -/
def wrapInt (x : Int) : Int := (x + 2147483648) % 4294967296 - 2147483648

/-- The value type `QMargins`: four `int`s. -/
structure QMargins where
  left : Int
  top : Int
  right : Int
  bottom : Int
  deriving DecidableEq

/-- The style constants (`st::settingsBlock...`) read by the widget. They are
declared in the style sheet, which is not part of the two source files, so they
are an input of the model. -/
structure Style where
  settingsBlockMarginTop : Int
  settingsBlockTitleHeight : Int
  settingsBlockMarginBottom : Int

/-- The child container `_content` (a vertical layout), as far as the widget
queries it: its margins, its height without margins once it has been resized to
a given width, and the position it was last moved to. -/
structure Content where
  /-- Result of `_content->getMargins()`. -/
  margins : QMargins
  /-- Result of `_content->heightNoMargins()` after `resizeToWidth(w)`. -/
  heightNoMarginsAt : Int → Int
  /-- Width given by the last `resizeToWidth`. -/
  width : Int
  /-- Position given by the last `moveToLeft` (x, y). -/
  pos : Int × Int

/-- The fields of `BlockWidget` that take part in layout. -/
structure BlockWidget where
  st : Style
  /-- Field `_title`. -/
  title : String
  /-- Field `_contentLeft`. -/
  contentLeft : Int
  /-- Field `_content`. -/
  content : Content
  /-- Widget geometry `width()`. -/
  width : Int
  /-- Widget geometry `height()`. -/
  height : Int

/-- Source: `emptyTitle()`: `_title.isEmpty()`. -/
def BlockWidget.emptyTitle (w : BlockWidget) : Bool := w.title.isEmpty

/-- Source: `BlockWidget::contentTop`:
`emptyTitle() ? 0 : (st::settingsBlockMarginTop + st::settingsBlockTitleHeight)`. -/
def BlockWidget.contentTop (w : BlockWidget) : Int :=
  if w.emptyTitle then 0
  else wrapInt (w.st.settingsBlockMarginTop + w.st.settingsBlockTitleHeight)

/-- Source: `qMax` on `int`. -/
def qMax (a b : Int) : Int := if a < b then b else a

/-- Source: `BlockWidget::getMargins`. -/
def BlockWidget.getMargins (w : BlockWidget) : QMargins :=
  let result := w.content.margins
  { left := result.left
    top := qMax (wrapInt (result.top - w.contentTop)) 0
    right := result.right
    bottom := qMax (wrapInt (result.bottom - w.st.settingsBlockMarginBottom)) 0 }

/-- Source: `BlockWidget::resizeGetHeight`: returns the new height together with the
widget whose content has been resized and moved. -/
def BlockWidget.resizeGetHeight (w : BlockWidget) (newWidth : Int) : Int × BlockWidget :=
  let x := w.contentLeft
  let result := w.contentTop
  let availw := wrapInt (newWidth - x)
  let margins := w.getMargins
  let content1 : Content := { w.content with width := availw }
  let content2 : Content :=
    { content1 with pos := (wrapInt (margins.left + x), wrapInt (margins.top + result)) }
  let result1 := wrapInt (result +
    wrapInt (content2.heightNoMarginsAt availw + w.st.settingsBlockMarginBottom))
  (result1, { w with content := content2 })

/-- The subscription installed by the constructor on `_content->heightValue()`:
`resize(width(), contentTop() + contentHeight + st::settingsBlockMarginBottom)`. -/
def BlockWidget.onContentHeight (w : BlockWidget) (contentHeight : Int) : BlockWidget :=
  { w with
    height := wrapInt (wrapInt (w.contentTop + contentHeight) + w.st.settingsBlockMarginBottom) }

/-- The height the spec's sentence describes: top margin, plus the title height
when the title is non-empty, plus the content height, plus the bottom margin. -/
def specHeight (st : Style) (title : String) (contentHeight : Int) : Int :=
  st.settingsBlockMarginTop
    + (if title.isEmpty then 0 else st.settingsBlockTitleHeight)
    + contentHeight + st.settingsBlockMarginBottom

/-- The height the code computes, without the reduction to 32 bits: the top
margin and the title height are both added only when the title is non-empty. -/
def codeHeight (st : Style) (title : String) (contentHeight : Int) : Int :=
  (if title.isEmpty then 0 else st.settingsBlockMarginTop + st.settingsBlockTitleHeight)
    + contentHeight + st.settingsBlockMarginBottom

/-- Membership in the range of a C++ `int`. -/
def InIntRange (x : Int) : Prop := -2147483648 ≤ x ∧ x < 2147483648

instance (x : Int) : Decidable (InIntRange x) := by unfold InIntRange; infer_instance

/-- A sample style sheet. -/
def sampleStyle : Style :=
  { settingsBlockMarginTop := 14
    settingsBlockTitleHeight := 31
    settingsBlockMarginBottom := 10 }

/-- A sample content container of constant height. -/
def sampleContent (m : QMargins) (h : Int) : Content :=
  { margins := m, heightNoMarginsAt := fun _ => h, width := 0, pos := (0, 0) }

/-- A sample widget over `sampleStyle`. -/
def sampleWidget (title : String) (m : QMargins) (h : Int) : BlockWidget :=
  { st := sampleStyle, title := title, contentLeft := 0,
    content := sampleContent m h, width := 0, height := 0 }

end Settings

/-! ## Part 2. `Window`: the peer context menu -/

namespace Window

/-! ### Peers -/

/-- Source: `UserData::BlockStatus`. -/
inductive BlockStatus
  | Unknown
  | Blocked
  | NotBlocked
  deriving DecidableEq

/-- The part of `BotInfo` the menu reads. -/
structure BotInfo where
  cantJoinGroups : Bool
  deriving DecidableEq

/-- A snapshot of a `UserData` object: the accessors the menu code calls. -/
structure UserData where
  id : Nat
  name : String
  isMuted : Bool
  isContact : Bool
  canShareThisContact : Bool
  botInfo : Option BotInfo
  isInaccessible : Bool
  blockStatus : BlockStatus
  deriving DecidableEq

/-- A snapshot of a `ChatData` object. -/
structure ChatData where
  id : Nat
  name : String
  isMuted : Bool
  canEdit : Bool
  amCreator : Bool
  isDeactivated : Bool
  count : Nat
  deriving DecidableEq

/-- A snapshot of a `ChannelData` object. `manageAvailable` is the result of
`ManagePeerBox::Available(channel)`. -/
structure ChannelData where
  id : Nat
  name : String
  isMuted : Bool
  isMegagroup : Bool
  amIn : Bool
  amCreator : Bool
  isPublic : Bool
  canAddMembers : Bool
  manageAvailable : Bool
  membersCount : Nat
  deriving DecidableEq

/-- The polymorphic `PeerData`: a user, a chat or a channel. -/
inductive PeerData
  | user (u : UserData)
  | chat (c : ChatData)
  | channel (c : ChannelData)
  deriving DecidableEq

/-- Peer identity (`peer->id`); two pointers denote the same peer iff the ids agree. -/
def PeerData.id : PeerData → Nat
  | .user u => u.id
  | .chat c => c.id
  | .channel c => c.id

def PeerData.name : PeerData → String
  | .user u => u.name
  | .chat c => c.name
  | .channel c => c.name

def PeerData.isMuted : PeerData → Bool
  | .user u => u.isMuted
  | .chat c => c.isMuted
  | .channel c => c.isMuted

def PeerData.isUser : PeerData → Bool
  | .user _ => true
  | _ => false

def PeerData.isChat : PeerData → Bool
  | .chat _ => true
  | _ => false

def PeerData.isChannel : PeerData → Bool
  | .channel _ => true
  | _ => false

def PeerData.asUser : PeerData → Option UserData
  | .user u => some u
  | _ => none

def PeerData.asChat : PeerData → Option ChatData
  | .chat c => some c
  | _ => none

def PeerData.asChannel : PeerData → Option ChannelData
  | .channel c => some c
  | _ => none

/-- Source: `PeerData::isMegagroup`: a channel whose megagroup flag is set. -/
def PeerData.isMegagroup : PeerData → Bool
  | .channel c => c.isMegagroup
  | _ => false

/-- Modelled from the spec: `UserData::isBlocked` is declared in a header that is
not among the source files; block/unblock is "re-derived from a tri-state status
(Blocked/NotBlocked/Unknown)", so a user is blocked exactly when the status is
`Blocked`. -/
def UserData.isBlocked (u : UserData) : Bool := u.blockStatus == BlockStatus.Blocked

/-- Source: `UserData::setBlockStatus`. -/
def UserData.setBlockStatus (u : UserData) (s : BlockStatus) : UserData :=
  { u with blockStatus := s }

/-! ### Texts, boxes, requests and the effect trace -/

/-- Localisation keys used by the menu code. -/
inductive LangKey
  | lng_context_unpin_from_top
  | lng_context_pin_to_top
  | lng_context_view_group
  | lng_context_view_profile
  | lng_context_view_channel
  | lng_enable_notifications_from_tray
  | lng_disable_notifications_from_tray
  | lng_profile_search_messages
  | lng_profile_unblock_bot
  | lng_profile_unblock_user
  | lng_profile_block_bot
  | lng_profile_block_user
  | lng_info_share_contact
  | lng_info_edit_contact
  | lng_info_delete_contact
  | lng_info_add_as_contact
  | lng_profile_invite_to_group
  | lng_profile_delete_conversation
  | lng_profile_clear_history
  | lng_profile_edit_contact
  | lng_profile_manage_admins
  | lng_profile_migrate_button
  | lng_profile_add_participant
  | lng_profile_clear_and_exit
  | lng_manage_group_title
  | lng_manage_channel_title
  | lng_channel_add_members
  | lng_profile_leave_group
  | lng_profile_leave_channel
  | lng_profile_join_group
  | lng_profile_join_channel
  | lng_profile_report
  | lng_sure_delete_history
  | lng_sure_delete_group_history
  | lng_sure_delete_and_exit
  | lng_sure_leave_group
  | lng_sure_leave_channel
  | lng_sure_delete_contact
  | lng_box_delete
  | lng_box_leave
  | lng_error_pinned_max
  deriving DecidableEq

/-- A localised text: `lang(key)`, a key with a name substituted
(`lng_...(lt_contact, name)`), or a key with a count (`lng_...(lt_count, n)`).
The text is kept symbolic. -/
inductive Text
  | lang (key : LangKey)
  | named (key : LangKey) (name : String)
  | counted (key : LangKey) (count : Nat)
  deriving DecidableEq

/-- The closures handed to a `ConfirmBox` as its confirm callback. -/
inductive ConfirmCallback
  | clearHistory (peer : PeerData)
  | deleteAndLeave (peer : PeerData)
  | deleteContact (user : UserData)
  deriving DecidableEq

/-- Button styles named in the source. -/
inductive BoxButtonStyle
  | defaultBoxButton
  | attentionBoxButton
  deriving DecidableEq

/-- The boxes `Ui::show` is called with by the modelled handlers. A confirm box
built without a style argument carries `none`. -/
inductive Box
  | ConfirmBox (text : Text) (confirmText : Text) (style : Option BoxButtonStyle)
      (confirmed : ConfirmCallback)
  | InformBox (text : Text)
  deriving DecidableEq

/-- The `rpcDone` handlers attached to requests. -/
inductive RpcDone
  /-- The lambda of the block action: captures the user and `willBeBlocked`. -/
  | blockDone (userId : Nat) (willBeBlocked : Bool)
  /-- Source: `App::main()->rpcDone(&MainWidget::deletedContact, user)`. -/
  | deletedContact (userId : Nat)
  deriving DecidableEq

/-- The MTP requests sent by the modelled handlers. -/
inductive Request
  | messages_ToggleDialogPin (pinned : Bool) (peerId : Nat)
  | contacts_Block (userId : Nat)
  | contacts_Unblock (userId : Nat)
  | contacts_DeleteContact (userId : Nat)
  deriving DecidableEq

/-- One call into a service outside the file. -/
inductive Effect
  /-- Source: `Ui::show(box)`. -/
  | show (box : Box)
  /-- Source: `Ui::hideLayer()`. -/
  | hideLayer
  /-- Source: `Ui::showChatsList()`. -/
  | showChatsList
  /-- Source: `MTP::send(request, handler)`. -/
  | send (request : Request) (done : Option RpcDone)
  /-- Source: `App::histories().savePinnedToServer()`. -/
  | savePinnedToServer
  /-- Source: `App::main()->dialogsToUp()`. -/
  | dialogsToUp
  /-- Source: `App::main()->clearHistory(peer)`. -/
  | clearHistory (peerId : Nat)
  /-- Source: `App::main()->deleteConversation(peer)`. -/
  | deleteConversation (peerId : Nat)
  /-- Source: `App::main()->deleteAndExit(chat)`. -/
  | deleteAndExit (chatId : Nat)
  /-- Source: `Auth().api().leaveChannel(channel)`. -/
  | leaveChannel (channelId : Nat)
  /-- Source: `Auth().api().requestFullPeer(user)`. -/
  | requestFullPeer (peerId : Nat)
  deriving DecidableEq

/-! ### The world -/

/-- A `History` object: the peer it belongs to, its pinned flag and whether it
is in the chat list (`inChatList(Dialogs::Mode::All)`). -/
structure History where
  peer : PeerData
  pinned : Bool
  inChatList : Bool
  deriving DecidableEq

/-- The state outside the menu: the loaded histories (`App::histories()`; a
`History*` is a position in this list), the global and session settings the
code reads, and the trace of effects, oldest first. -/
structure World where
  histories : List History
  /-- Source: `Global::PinnedDialogsCountMax()`. -/
  pinnedDialogsCountMax : Nat
  /-- Whether `App::main()` is non-null. -/
  hasMain : Bool
  /-- Peer id of `App::self()`, if any. -/
  self : Option Nat
  /-- Source: `Adaptive::ThreeColumn()`. -/
  threeColumn : Bool
  /-- Source: `Auth().data().thirdSectionInfoEnabled()`. -/
  thirdSectionInfoEnabled : Bool
  /-- Source: `Auth().data().tabbedReplacedWithInfo()`. -/
  tabbedReplacedWithInfo : Bool
  trace : List Effect
  deriving DecidableEq

/-- Append one effect to the trace. -/
def World.emit (w : World) (e : Effect) : World := { w with trace := w.trace ++ [e] }

/-- Modelled from the spec: `History::isPinnedDialog` is not among the source
files; a history is "per-peer conversation state including pinned flag", and the
accessor reads that flag. -/
def isPinnedDialog (w : World) (history : Nat) : Bool :=
  match w.histories[history]? with
  | some h => h.pinned
  | none => false

/-- Set the pinned flag of the history at a position of the list. -/
def setPinnedAt : List History → Nat → Bool → List History
  | [], _, _ => []
  | h :: hs, 0, b => { h with pinned := b } :: hs
  | h :: hs, i + 1, b => h :: setPinnedAt hs i b

/-- Modelled from the spec: `History::setPinnedDialog` is not among the source
files; it writes the pinned flag of that history. -/
def setPinnedDialog (w : World) (history : Nat) (isPinned : Bool) : World :=
  { w with histories := setPinnedAt w.histories history isPinned }

/-- Modelled from the spec: `Histories::pinnedCount` is not among the source
files; it is the number of histories whose pinned flag is set. -/
def pinnedCount (w : World) : Nat := w.histories.countP (fun h => h.pinned)

/-- Modelled from the spec: `Histories::getPinnedOrder` is not among the source
files; it lists the pinned histories, here in the order of the store. -/
def getPinnedOrder (w : World) : List Nat :=
  (List.range w.histories.length).filter (fun i => isPinnedDialog w i)

/-- Modelled from the spec: `App::historyLoaded` is not among the source files;
it returns the history of the peer if one is loaded, and null otherwise. -/
def App.historyLoaded (w : World) (peer : PeerData) : Option Nat :=
  let i := w.histories.findIdx (fun h => h.peer.id == peer.id)
  if i < w.histories.length then some i else none

/-- Modelled from the spec: `App::history` is not among the source files; it
returns the history of the peer, creating an unpinned one when none is loaded. -/
def App.history (w : World) (peer : PeerData) : World × Nat :=
  match App.historyLoaded w peer with
  | some i => (w, i)
  | none =>
    ({ w with histories := w.histories ++ [{ peer := peer, pinned := false, inChatList := false }] },
      w.histories.length)

/-- The test in the loop of `FindWastedPin`: the history belongs to a chat, the
chat is deactivated, and the history is not in the chat list. -/
def isWastedPin (w : World) (pinned : Nat) : Bool :=
  match w.histories[pinned]? with
  | some h =>
    h.peer.isChat
      && (match h.peer.asChat with
          | some chat => chat.isDeactivated
          | none => false)
      && !h.inChatList
  | none => false

/-- Source: `FindWastedPin`: the first history in pinned order that passes the test,
or null. -/
def FindWastedPin (w : World) : Option Nat :=
  let order := getPinnedOrder w
  order.find? (fun pinned => isWastedPin w pinned)

/-- What the specification calls a wasted pin: a deactivated chat that is still pinned
(without the chat-list condition of the code). -/
def isDeactivatedPinnedChat (w : World) (i : Nat) : Bool :=
  match w.histories[i]? with
  | some h =>
    h.pinned && (match h.peer with
                 | .chat c => c.isDeactivated
                 | _ => false)
  | none => false

/-! ### Handlers bound to menu entries -/

/-- The `pinToggle` closure created in `Filler::addPinToggle`, run on a world. -/
def pinToggle (peer : PeerData) (w : World) : World :=
  let (w, history) := App.history w peer
  let isPinned := !isPinnedDialog w history
  let pinnedCount := pinnedCount w
  let pinnedMax := w.pinnedDialogsCountMax
  if isPinned && decide (pinnedCount ≥ pinnedMax) then
    -- Some old chat, that was converted to supergroup, maybe is still pinned.
    match FindWastedPin w with
    | some wasted =>
      let w := setPinnedDialog w wasted false
      let w := setPinnedDialog w history isPinned
      w.emit Effect.savePinnedToServer
    | none =>
      let errorText := Text.counted LangKey.lng_error_pinned_max pinnedMax
      w.emit (Effect.show (Box.InformBox errorText))
  else
    let w := setPinnedDialog w history isPinned
    let w := w.emit (Effect.send (Request.messages_ToggleDialogPin isPinned peer.id) none)
    if isPinned then
      if w.hasMain then w.emit Effect.dialogsToUp else w
    else w

/-- The closure returned by `ClearHistoryHandler(peer)`, run on a world. -/
def ClearHistoryHandler (peer : PeerData) (w : World) : World :=
  let text :=
    if peer.isUser then Text.named LangKey.lng_sure_delete_history peer.name
    else Text.named LangKey.lng_sure_delete_group_history peer.name
  w.emit (Effect.show (Box.ConfirmBox text (Text.lang LangKey.lng_box_delete)
    (some BoxButtonStyle.attentionBoxButton) (ConfirmCallback.clearHistory peer)))

/-- The closure returned by `DeleteAndLeaveHandler(peer)`, run on a world. -/
def DeleteAndLeaveHandler (peer : PeerData) (w : World) : World :=
  let warningText :=
    if peer.isUser then Text.named LangKey.lng_sure_delete_history peer.name
    else if peer.isChat then Text.named LangKey.lng_sure_delete_and_exit peer.name
    else Text.lang (if peer.isMegagroup then LangKey.lng_sure_leave_group
      else LangKey.lng_sure_leave_channel)
  let confirmText :=
    Text.lang (if peer.isUser then LangKey.lng_box_delete else LangKey.lng_box_leave)
  let confirmStyle :=
    if peer.isChannel then BoxButtonStyle.defaultBoxButton
    else BoxButtonStyle.attentionBoxButton
  w.emit (Effect.show (Box.ConfirmBox warningText confirmText (some confirmStyle)
    (ConfirmCallback.deleteAndLeave peer)))

/-- Source: `PeerMenuDeleteContact(user)`, run on a world. -/
def PeerMenuDeleteContact (user : UserData) (w : World) : World :=
  let text := Text.named LangKey.lng_sure_delete_contact user.name
  let box := Box.ConfirmBox text (Text.lang LangKey.lng_box_delete) none
    (ConfirmCallback.deleteContact user)
  w.emit (Effect.show box)

/-- Running the confirm callback of a `ConfirmBox` (the user pressed the confirm
button). The result is `none` where the code dereferences a null `App::main()`. -/
def ConfirmCallback.invoke : ConfirmCallback → World → Option World
  | .clearHistory peer, w =>
    if !w.hasMain then some w
    else
      let w := w.emit Effect.hideLayer
      some (w.emit (Effect.clearHistory peer.id))
  | .deleteAndLeave peer, w =>
    if !w.hasMain then some w
    else
      let w := w.emit Effect.hideLayer
      let w := w.emit Effect.showChatsList
      if peer.isUser then some (w.emit (Effect.deleteConversation peer.id))
      else
        match peer.asChat with
        | some chat => some (w.emit (Effect.deleteAndExit chat.id))
        | none =>
          match peer.asChannel with
          | some channel => some (w.emit (Effect.leaveChannel channel.id))
          | none => some w
  | .deleteContact user, w =>
    let w := w.emit Effect.showChatsList
    let w := w.emit Effect.hideLayer
    if w.hasMain then
      some (w.emit (Effect.send (Request.contacts_DeleteContact user.id)
        (some (RpcDone.deletedContact user.id))))
    else none

/-- The effects the spec calls destructive or a network request: a deletion, a
leave, a clear, or any `MTP::send`. -/
def Effect.isDestructive : Effect → Bool
  | .clearHistory _ => true
  | .deleteConversation _ => true
  | .deleteAndExit _ => true
  | .leaveChannel _ => true
  | .send _ _ => true
  | .requestFullPeer _ => true
  | _ => false

/-- The closure bound to the block entry in `Filler::addBlockUser`, run on a
world; `user` is the state of the user object when the entry is triggered. -/
def blockUserAction (user : UserData) (w : World) : World :=
  let willBeBlocked := !user.isBlocked
  let handler := RpcDone.blockDone user.id willBeBlocked
  if willBeBlocked then
    w.emit (Effect.send (Request.contacts_Block user.id) (some handler))
  else
    w.emit (Effect.send (Request.contacts_Unblock user.id) (some handler))

/-- The body of the `rpcDone` lambda of the block action, run when the request
completes; `user` is the state of the captured user object at that moment. -/
def blockDone (willBeBlocked : Bool) (user : UserData) : UserData :=
  user.setBlockStatus
    (if willBeBlocked then BlockStatus.Blocked else BlockStatus.NotBlocked)

/-! ### The menu builder -/

/-- Source: `PeerMenuSource`: where the menu is requested from. -/
inductive PeerMenuSource
  | ChatsList
  | History
  | Profile
  deriving DecidableEq

/-- The part of `Window::Controller` the builder reads: `activePeer.current()`,
as a peer id. -/
structure Controller where
  activePeer : Option Nat
  deriving DecidableEq

/-- The handler closures registered by the builder, named after what they call. -/
inductive Action
  | pinToggle (peer : PeerData)
  | showPeerInfo (peer : PeerData)
  | toggleNotifications (peer : PeerData)
  | searchInPeer (peer : PeerData)
  | blockUser (user : UserData)
  | shareContactBox (user : UserData)
  | editContactBox (user : UserData)
  | deleteContact (user : UserData)
  | addContact (user : UserData)
  | addBotToGroup (user : UserData)
  | deleteAndLeave (peer : PeerData)
  | clearHistory (peer : PeerData)
  | editNameTitleBox (chat : ChatData)
  | editChatAdmins (chat : ChatData)
  | convertToSupergroupBox (chat : ChatData)
  | addChatMembers (chat : ChatData)
  | managePeerBox (channel : ChannelData)
  | addChannelMembers (channel : ChannelData)
  | joinChannel (channel : ChannelData)
  | reportBox (channel : ChannelData)
  deriving DecidableEq

/-- Source: `Notify::PeerUpdate::Flag` values the builder subscribes to. -/
inductive PeerUpdateFlag
  | PinnedChanged
  | NotificationsEnabled
  | UserIsBlocked
  deriving DecidableEq

/-- One call of the callback `_addAction(text, handler)`, with the subscription
(if any) that the builder attaches to the returned action. -/
structure MenuEntry where
  text : Text
  handler : Action
  lifetime : Option PeerUpdateFlag
  deriving DecidableEq

/-- The fields of `Filler` other than the callback. -/
structure Filler where
  controller : Controller
  peer : PeerData
  source : PeerMenuSource
  deriving DecidableEq

/-- The state threaded through the builder: the world, and the menu, which is
the list of entries registered through the callback so far, in call order. -/
structure FillState where
  world : World
  menu : List MenuEntry
  deriving DecidableEq

/-- Modelled from the spec: the callback `_addAction` is supplied by the caller
and is not among the source files; it "registers a menu entry", so each call
appends one (label, action) pair to the menu. -/
def FillState.addAction (s : FillState) (text : Text) (handler : Action)
    (lifetime : Option PeerUpdateFlag) : FillState :=
  { s with menu := s.menu ++ [{ text := text, handler := handler, lifetime := lifetime }] }

/-- Source: `Filler::showInfo`. -/
def Filler.showInfo (f : Filler) (w : World) : Bool :=
  if f.source = PeerMenuSource.Profile then false
  else if f.controller.activePeer ≠ some f.peer.id then true
  else if !w.threeColumn then true
  else if !w.thirdSectionInfoEnabled && !w.tabbedReplacedWithInfo then true
  else false

/-- The lambda `pinText` of `addPinToggle`. -/
def pinText (isPinned : Bool) : Text :=
  Text.lang (if isPinned then LangKey.lng_context_unpin_from_top
    else LangKey.lng_context_pin_to_top)

/-- Source: `Filler::addPinToggle`. -/
def Filler.addPinToggle (f : Filler) (s : FillState) : FillState :=
  let peer := f.peer
  let isPinned :=
    match App.historyLoaded s.world peer with
    | some history => isPinnedDialog s.world history
    | none => false
  s.addAction (pinText isPinned) (Action.pinToggle peer) (some PeerUpdateFlag.PinnedChanged)

/-- Source: `Filler::addInfo`. -/
def Filler.addInfo (f : Filler) (s : FillState) : FillState :=
  let peer := f.peer
  let infoKey :=
    if peer.isChat || peer.isMegagroup then LangKey.lng_context_view_group
    else if peer.isUser then LangKey.lng_context_view_profile
    else LangKey.lng_context_view_channel
  s.addAction (Text.lang infoKey) (Action.showPeerInfo peer) none

/-- The lambda `muteText` of `addNotifications`. -/
def muteText (isMuted : Bool) : Text :=
  Text.lang (if isMuted then LangKey.lng_enable_notifications_from_tray
    else LangKey.lng_disable_notifications_from_tray)

/-- Source: `Filler::addNotifications`. -/
def Filler.addNotifications (f : Filler) (s : FillState) : FillState :=
  let peer := f.peer
  s.addAction (muteText peer.isMuted) (Action.toggleNotifications peer)
    (some PeerUpdateFlag.NotificationsEnabled)

/-- Source: `Filler::addSearch`. -/
def Filler.addSearch (f : Filler) (s : FillState) : FillState :=
  s.addAction (Text.lang LangKey.lng_profile_search_messages) (Action.searchInPeer f.peer) none

/-- The lambda `blockText` of `addBlockUser`. -/
def blockText (user : UserData) : Text :=
  Text.lang (if user.isBlocked then
      (if user.botInfo.isSome then LangKey.lng_profile_unblock_bot
        else LangKey.lng_profile_unblock_user)
    else
      (if user.botInfo.isSome then LangKey.lng_profile_block_bot
        else LangKey.lng_profile_block_user))

/-- Source: `Filler::addBlockUser`. -/
def Filler.addBlockUser (_f : Filler) (user : UserData) (s : FillState) : FillState :=
  let s := s.addAction (blockText user) (Action.blockUser user)
    (some PeerUpdateFlag.UserIsBlocked)
  if user.blockStatus = BlockStatus.Unknown then
    { s with world := s.world.emit (Effect.requestFullPeer user.id) }
  else s

/-- Source: `Filler::addUserActions`. -/
def Filler.addUserActions (f : Filler) (user : UserData) (s : FillState) : FillState :=
  let s :=
    if f.source ≠ PeerMenuSource.ChatsList then
      if user.isContact then
        let s := s.addAction (Text.lang LangKey.lng_info_share_contact)
          (Action.shareContactBox user) none
        let s := s.addAction (Text.lang LangKey.lng_info_edit_contact)
          (Action.editContactBox user) none
        s.addAction (Text.lang LangKey.lng_info_delete_contact)
          (Action.deleteContact user) none
      else if user.canShareThisContact then
        let s := s.addAction (Text.lang LangKey.lng_info_add_as_contact)
          (Action.addContact user) none
        s.addAction (Text.lang LangKey.lng_info_share_contact)
          (Action.shareContactBox user) none
      else if (match user.botInfo with
               | some botInfo => !botInfo.cantJoinGroups
               | none => false) then
        s.addAction (Text.lang LangKey.lng_profile_invite_to_group)
          (Action.addBotToGroup user) none
      else s
    else s
  let s := s.addAction (Text.lang LangKey.lng_profile_delete_conversation)
    (Action.deleteAndLeave (PeerData.user user)) none
  let s := s.addAction (Text.lang LangKey.lng_profile_clear_history)
    (Action.clearHistory (PeerData.user user)) none
  if !user.isInaccessible && decide (some user.id ≠ s.world.self) then
    f.addBlockUser user s
  else s

/-- Source: `Filler::addChatActions`. -/
def Filler.addChatActions (f : Filler) (chat : ChatData) (s : FillState) : FillState :=
  let s :=
    if f.source ≠ PeerMenuSource.ChatsList then
      let s :=
        if chat.canEdit then
          s.addAction (Text.lang LangKey.lng_profile_edit_contact)
            (Action.editNameTitleBox chat) none
        else s
      let s :=
        if chat.amCreator && !chat.isDeactivated then
          let s := s.addAction (Text.lang LangKey.lng_profile_manage_admins)
            (Action.editChatAdmins chat) none
          s.addAction (Text.lang LangKey.lng_profile_migrate_button)
            (Action.convertToSupergroupBox chat) none
        else s
      if chat.canEdit then
        s.addAction (Text.lang LangKey.lng_profile_add_participant)
          (Action.addChatMembers chat) none
      else s
    else s
  let s := s.addAction (Text.lang LangKey.lng_profile_clear_and_exit)
    (Action.deleteAndLeave f.peer) none
  s.addAction (Text.lang LangKey.lng_profile_clear_history)
    (Action.clearHistory f.peer) none

/-- Source: `Filler::addChannelActions`. -/
def Filler.addChannelActions (f : Filler) (channel : ChannelData) (s : FillState) : FillState :=
  let s :=
    if f.source ≠ PeerMenuSource.ChatsList then
      let s :=
        if channel.manageAvailable then
          let text := Text.lang (if channel.isMegagroup then LangKey.lng_manage_group_title
            else LangKey.lng_manage_channel_title)
          s.addAction text (Action.managePeerBox channel) none
        else s
      if channel.canAddMembers then
        s.addAction (Text.lang LangKey.lng_channel_add_members)
          (Action.addChannelMembers channel) none
      else s
    else s
  let s :=
    if channel.amIn then
      let leaveText := Text.lang (if channel.isMegagroup then LangKey.lng_profile_leave_group
        else LangKey.lng_profile_leave_channel)
      s.addAction leaveText (Action.deleteAndLeave (PeerData.channel channel)) none
    else
      let joinText := Text.lang (if channel.isMegagroup then LangKey.lng_profile_join_group
        else LangKey.lng_profile_join_channel)
      s.addAction joinText (Action.joinChannel channel) none
  if f.source ≠ PeerMenuSource.ChatsList then
    let needReport := !channel.amCreator && (!channel.isMegagroup || channel.isPublic)
    if needReport then
      s.addAction (Text.lang LangKey.lng_profile_report) (Action.reportBox channel) none
    else s
  else s

/-- Source: `Filler::fill`. -/
def Filler.fill (f : Filler) (s : FillState) : FillState :=
  let s := if f.source = PeerMenuSource.ChatsList then f.addPinToggle s else s
  let s := if f.showInfo s.world then f.addInfo s else s
  let s := if f.source ≠ PeerMenuSource.Profile then f.addNotifications s else s
  let s := if f.source = PeerMenuSource.ChatsList then f.addSearch s else s
  match f.peer with
  | .user user => f.addUserActions user s
  | .chat chat => f.addChatActions chat s
  | .channel channel => f.addChannelActions channel s

/-- Source: `FillPeerMenu`: build a `Filler` and fill. The result is the world after the
call and the list of entries passed to `callback`, starting from an empty menu. -/
def FillPeerMenu (controller : Controller) (peer : PeerData) (source : PeerMenuSource)
    (w : World) : FillState :=
  let filler : Filler := { controller := controller, peer := peer, source := source }
  filler.fill { world := w, menu := [] }

/-- The labels of a menu, in order. -/
def labels (menu : List MenuEntry) : List Text := menu.map (fun e => e.text)

/-! ### Notions used in the statements -/

/-- The pinned state shown for a peer: the flag of its loaded history, `false`
when no history is loaded. -/
def targetPinned (w : World) (peer : PeerData) : Bool :=
  match App.historyLoaded w peer with
  | some history => isPinnedDialog w history
  | none => false

/-- A builder step appends a fixed, non-empty list of entries each time it is
called: `es` after one call, `es ++ es` after two, so the menu after two calls
is not the menu after one. -/
def AppendsEachCall (m : FillState → FillState) : Prop :=
  ∀ s : FillState, ∃ es : List MenuEntry,
    es ≠ [] ∧ (m s).menu = s.menu ++ es ∧ (m (m s)).menu = s.menu ++ es ++ es
      ∧ (m (m s)).menu ≠ (m s).menu

/-- The handler did nothing but show one `ConfirmBox` bound to the callback
`cb`: the world after is the world before with that single `Ui::show` appended
to the trace, so the histories are untouched and the trace gained no deletion,
leave, clear or request. -/
def ShowsOnlyConfirmBox (w w' : World) (cb : ConfirmCallback) : Prop :=
  ∃ (text confirmText : Text) (style : Option BoxButtonStyle),
    w' = w.emit (Effect.show (Box.ConfirmBox text confirmText style cb))
      ∧ w'.histories = w.histories
      ∧ w'.trace = w.trace ++ [Effect.show (Box.ConfirmBox text confirmText style cb)]
      ∧ (∀ e ∈ w'.trace.drop w.trace.length, Effect.isDestructive e = false)

/-! ### Sample data -/

/-- A sample user. -/
def sampleUser : UserData :=
  { id := 1, name := "Ann", isMuted := false, isContact := true,
    canShareThisContact := true, botInfo := none, isInaccessible := false,
    blockStatus := BlockStatus.NotBlocked }

/-- A sample deactivated chat. -/
def sampleDeadChat : ChatData :=
  { id := 2, name := "Old group", isMuted := false, canEdit := false,
    amCreator := false, isDeactivated := true, count := 0 }

/-- A world with the given histories and pinned limit, and an empty trace. -/
def sampleWorld (hs : List History) (pinnedMax : Nat) : World :=
  { histories := hs, pinnedDialogsCountMax := pinnedMax, hasMain := true, self := none,
    threeColumn := true, thirdSectionInfoEnabled := true, tabbedReplacedWithInfo := false,
    trace := [] }

/-- A sample world at the pinned limit with nothing to evict: one pinned user
history (peer id 3), limit 1. -/
def fullWorld : World :=
  sampleWorld
    [{ peer := PeerData.user { sampleUser with id := 3 }, pinned := true, inChatList := true }] 1

/-- A world at the limit 1 whose only pin is a deactivated chat that is still
in the chat list. -/
def listedDeadChatWorld : World :=
  sampleWorld [{ peer := PeerData.chat sampleDeadChat, pinned := true, inChatList := true }] 1

/-- A world above the limit with nothing to evict: two pinned user histories
(peer ids 3 and 4), limit 1. -/
def overfullWorld : World :=
  sampleWorld
    [{ peer := PeerData.user { sampleUser with id := 3 }, pinned := true, inChatList := true },
     { peer := PeerData.user { sampleUser with id := 4 }, pinned := true, inChatList := true }] 1

/-- A world at the limit 1 whose only pin is a deactivated chat that is no
longer in the chat list. -/
def wastedPinWorld : World :=
  sampleWorld [{ peer := PeerData.chat sampleDeadChat, pinned := true, inChatList := false }] 1

end Window

/-! ## Theorems: `Settings::BlockWidget` -/

namespace Settings

/-- A value in the `int` range is not changed by the reduction. -/
theorem wrapInt_of_inRange (x : Int) (h : InIntRange x) : wrapInt x = x := by
  unfold InIntRange at h
  unfold wrapInt
  omega

/-- The reduction may be dropped under an outer reduction of a sum. -/
theorem wrapInt_add_wrapInt (a b : Int) : wrapInt (wrapInt a + wrapInt b) = wrapInt (a + b) := by
  unfold wrapInt
  omega

/-- Zero is left alone by the reduction. -/
theorem wrapInt_zero_add (b : Int) : wrapInt (0 + wrapInt b) = wrapInt b := by
  unfold wrapInt
  omega

/-- The height returned by `resizeGetHeight` is the reduced `codeHeight`. -/
theorem resizeGetHeight_eq (w : BlockWidget) (newWidth : Int) :
    (w.resizeGetHeight newWidth).1 =
      wrapInt (codeHeight w.st w.title
        (w.content.heightNoMarginsAt (wrapInt (newWidth - w.contentLeft)))) := by
  simp only [BlockWidget.resizeGetHeight, BlockWidget.contentTop, BlockWidget.emptyTitle,
    codeHeight]
  by_cases ht : w.title.isEmpty = true
  · simp only [ht, if_true]
    rw [wrapInt_zero_add, Int.zero_add]
  · simp only [ht, Bool.false_eq_true, if_false]
    rw [wrapInt_add_wrapInt]
    congr 1
    omega

/-- The height set on a content-height change is the reduced `codeHeight`. -/
theorem onContentHeight_eq (w : BlockWidget) (contentHeight : Int) :
    (w.onContentHeight contentHeight).height =
      wrapInt (codeHeight w.st w.title contentHeight) := by
  simp only [BlockWidget.onContentHeight, BlockWidget.contentTop, BlockWidget.emptyTitle,
    codeHeight]
  by_cases ht : w.title.isEmpty = true
  · simp only [ht, if_true]
    unfold wrapInt
    omega
  · simp only [ht]
    unfold wrapInt
    simp only [Bool.false_eq_true, if_false]
    omega

/-- C4, counterexample: with an empty title, a top margin of 14, a bottom margin
of 10 and a content height of 100, `resizeGetHeight` returns 110 and the resize
on a content-height change sets 110, while the formula of the specification (which
counts the top margin also for an empty title) gives 124. -/
theorem C4_counterexample :
    ((sampleWidget "" ⟨0, 0, 0, 0⟩ 100).resizeGetHeight 300).1 = 110
      ∧ ((sampleWidget "" ⟨0, 0, 0, 0⟩ 100).onContentHeight 100).height = 110
      ∧ specHeight sampleStyle "" 100 = 124
      ∧ ((sampleWidget "" ⟨0, 0, 0, 0⟩ 100).resizeGetHeight 300).1
          ≠ specHeight sampleStyle "" 100
      ∧ ((sampleWidget "" ⟨0, 0, 0, 0⟩ 100).onContentHeight 100).height
          ≠ specHeight sampleStyle "" 100 := by
  decide

/-- C4, amended: for every widget (style, title, content) and width, the height
computed by `resizeGetHeight`, and the height set by the resize on a
content-height change, is `codeHeight` as a C++ `int`: the content height plus
the bottom margin, plus top margin and title height only when the title is
non-empty; whenever that sum is in the `int` range the height equals it exactly. -/
theorem C4_height_formula (w : BlockWidget) (newWidth contentHeight : Int) :
    ((w.resizeGetHeight newWidth).1 =
        wrapInt (codeHeight w.st w.title
          (w.content.heightNoMarginsAt (wrapInt (newWidth - w.contentLeft)))))
      ∧ ((w.onContentHeight contentHeight).height =
        wrapInt (codeHeight w.st w.title contentHeight))
      ∧ (InIntRange (codeHeight w.st w.title
            (w.content.heightNoMarginsAt (wrapInt (newWidth - w.contentLeft)))) →
          (w.resizeGetHeight newWidth).1 =
            codeHeight w.st w.title
              (w.content.heightNoMarginsAt (wrapInt (newWidth - w.contentLeft))))
      ∧ (InIntRange (codeHeight w.st w.title contentHeight) →
          (w.onContentHeight contentHeight).height =
            codeHeight w.st w.title contentHeight) := by
  refine ⟨resizeGetHeight_eq w newWidth, onContentHeight_eq w contentHeight, ?_, ?_⟩
  · intro h
    rw [resizeGetHeight_eq, wrapInt_of_inRange _ h]
  · intro h
    rw [onContentHeight_eq, wrapInt_of_inRange _ h]

/-- C4, amended, at a concrete widget: title "Info" (top margin 14, title height
31), content height 100, bottom margin 10: both heights are 155; and with an
empty title both are 110. -/
theorem C4_height_formula_witness :
    ((sampleWidget "Info" ⟨0, 0, 0, 0⟩ 100).resizeGetHeight 300).1 = 155
      ∧ ((sampleWidget "Info" ⟨0, 0, 0, 0⟩ 100).onContentHeight 100).height = 155
      ∧ ((sampleWidget "" ⟨0, 0, 0, 0⟩ 100).resizeGetHeight 300).1 = 110 := by
  have h1 := C4_height_formula (sampleWidget "Info" ⟨0, 0, 0, 0⟩ 100) 300 100
  have h2 := C4_height_formula (sampleWidget "" ⟨0, 0, 0, 0⟩ 100) 300 100
  refine ⟨?_, ?_, ?_⟩
  · rw [h1.2.2.1 (by decide)]; decide
  · rw [h1.2.2.2 (by decide)]; decide
  · rw [h2.2.2.1 (by decide)]; decide

/-- C5, counterexample: a content whose left margin is -1 (and whose right
margin is -2) makes `getMargins` return a left margin of -1 and a right margin
of -2: these two are not clamped. -/
theorem C5_counterexample :
    (sampleWidget "" ⟨-1, 5, -2, 5⟩ 100).getMargins = ⟨-1, 5, -2, 0⟩
      ∧ (sampleWidget "" ⟨-1, 5, -2, 5⟩ 100).getMargins.left < 0
      ∧ (sampleWidget "" ⟨-1, 5, -2, 5⟩ 100).getMargins.right < 0
      ∧ ¬ (0 ≤ (sampleWidget "" ⟨-1, 5, -2, 5⟩ 100).getMargins.left) := by
  decide

/-- C5, amended: for every content margins value and every title, the top and
bottom margins returned by `getMargins` are clamped to non-negative (top is the
content top margin reduced by `contentTop()`, bottom the content bottom margin
reduced by `settingsBlockMarginBottom`, each replaced by 0 when negative), while
left and right are the content's left and right margins unchanged. -/
theorem C5_margins_clamped (w : BlockWidget) :
    0 ≤ w.getMargins.top
      ∧ 0 ≤ w.getMargins.bottom
      ∧ w.getMargins.left = w.content.margins.left
      ∧ w.getMargins.right = w.content.margins.right
      ∧ w.getMargins.top = max (wrapInt (w.content.margins.top - w.contentTop)) 0
      ∧ w.getMargins.bottom =
          max (wrapInt (w.content.margins.bottom - w.st.settingsBlockMarginBottom)) 0 := by
  have hq : ∀ a : Int, qMax a 0 = max a 0 := by
    intro a
    unfold qMax
    split_ifs with h <;> omega
  simp only [BlockWidget.getMargins, hq]
  refine ⟨le_max_right _ _, le_max_right _ _, trivial, trivial, trivial, trivial⟩

end Settings

/-! ## Theorems: the menu builder -/

namespace Window

/-- C1, counterexample: the user with id 1 is the active peer, the layout has
three columns and the third-section info is enabled, so `showInfo()` is false:
the labels for source ChatsList are pin, notifications, search, delete
conversation, clear history, block, and the first four are not pin, info,
notifications, search. -/
theorem C1_counterexample :
    labels (FillPeerMenu { activePeer := some 1 } (PeerData.user sampleUser)
        PeerMenuSource.ChatsList (sampleWorld [] 5)).menu
      = [Text.lang LangKey.lng_context_pin_to_top,
         Text.lang LangKey.lng_disable_notifications_from_tray,
         Text.lang LangKey.lng_profile_search_messages,
         Text.lang LangKey.lng_profile_delete_conversation,
         Text.lang LangKey.lng_profile_clear_history,
         Text.lang LangKey.lng_profile_block_user]
    ∧ (labels (FillPeerMenu { activePeer := some 1 } (PeerData.user sampleUser)
        PeerMenuSource.ChatsList (sampleWorld [] 5)).menu).take 4
      ≠ [Text.lang LangKey.lng_context_pin_to_top,
         Text.lang LangKey.lng_context_view_profile,
         Text.lang LangKey.lng_disable_notifications_from_tray,
         Text.lang LangKey.lng_profile_search_messages] := by
  decide

/-- C1, amended: for every user peer and every controller and world,
`FillPeerMenu` with source ChatsList registers, in this order: the pin toggle;
the info entry exactly when `showInfo()` holds; the notifications toggle; the
search entry; delete conversation; clear history; and the block toggle when the
user is accessible and is not the logged-in user. -/
theorem C1_chats_list_user_menu (controller : Controller) (user : UserData) (w : World) :
    labels (FillPeerMenu controller (PeerData.user user) PeerMenuSource.ChatsList w).menu
      = [pinText (targetPinned w (PeerData.user user))]
        ++ (if Filler.showInfo
              { controller := controller, peer := PeerData.user user,
                source := PeerMenuSource.ChatsList } w
            then [Text.lang LangKey.lng_context_view_profile] else [])
        ++ [muteText user.isMuted,
            Text.lang LangKey.lng_profile_search_messages,
            Text.lang LangKey.lng_profile_delete_conversation,
            Text.lang LangKey.lng_profile_clear_history]
        ++ (if !user.isInaccessible && decide (some user.id ≠ w.self)
            then [blockText user] else []) := by
  have hself : ∀ (f : Filler) (s : FillState), (f.addBlockUser user s).menu
      = s.menu ++ [{ text := blockText user, handler := Action.blockUser user,
                     lifetime := some PeerUpdateFlag.UserIsBlocked }] := by
    intro f s
    unfold Filler.addBlockUser
    split_ifs <;> rfl
  unfold FillPeerMenu Filler.fill
  simp only [if_true, ne_eq, not_false_eq_true, reduceCtorEq]
  unfold Filler.addUserActions
  simp only [ne_eq, not_true_eq_false, if_false]
  by_cases h1 : Filler.showInfo
      { controller := controller, peer := PeerData.user user,
        source := PeerMenuSource.ChatsList } w = true
  all_goals
    simp only [h1, Filler.addPinToggle, Filler.addInfo, Filler.addNotifications,
      Filler.addSearch, FillState.addAction, labels, targetPinned, PeerData.isChat,
      PeerData.isMegagroup, PeerData.isUser, PeerData.isMuted, if_true, if_false,
      Bool.false_eq_true, Bool.or_self, List.nil_append, List.cons_append, List.append_nil,
      ne_eq, reduceCtorEq, not_false_eq_true]
    split_ifs <;> simp [hself]

/-- Showing a confirm box is all that `emit` of a `Ui::show` does. -/
theorem showsOnlyConfirmBox_emit (w : World) (text confirmText : Text)
    (style : Option BoxButtonStyle) (cb : ConfirmCallback) :
    ShowsOnlyConfirmBox w
      (w.emit (Effect.show (Box.ConfirmBox text confirmText style cb))) cb := by
  refine ⟨text, confirmText, style, rfl, rfl, rfl, ?_⟩
  intro e he
  simp only [World.emit, List.drop_left, List.mem_singleton] at he
  subst he
  rfl

/-- C6: for every peer, user and world, invoking the clear-history handler, the
delete-and-leave handler or `PeerMenuDeleteContact` only shows one `ConfirmBox`
(no deletion, leave, clear or request, histories untouched); the destructive
effect is produced by the confirm callback of that box: clear history, delete
conversation / delete and exit / leave channel (both only when `App::main()`
exists), and the delete-contact request. -/
theorem C6_destructive_actions_confirm_first (peer : PeerData) (user : UserData) (w : World) :
    ShowsOnlyConfirmBox w (ClearHistoryHandler peer w) (ConfirmCallback.clearHistory peer)
      ∧ ShowsOnlyConfirmBox w (DeleteAndLeaveHandler peer w) (ConfirmCallback.deleteAndLeave peer)
      ∧ ShowsOnlyConfirmBox w (PeerMenuDeleteContact user w) (ConfirmCallback.deleteContact user)
      ∧ (ConfirmCallback.clearHistory peer).invoke w
          = some (if w.hasMain then
              { w with trace := w.trace ++ [Effect.hideLayer, Effect.clearHistory peer.id] }
            else w)
      ∧ (ConfirmCallback.deleteAndLeave peer).invoke w
          = some (if w.hasMain then
              { w with trace := w.trace ++ [Effect.hideLayer, Effect.showChatsList,
                  (match peer with
                   | PeerData.user u => Effect.deleteConversation u.id
                   | PeerData.chat c => Effect.deleteAndExit c.id
                   | PeerData.channel c => Effect.leaveChannel c.id)] }
            else w)
      ∧ (ConfirmCallback.deleteContact user).invoke w
          = (if w.hasMain then
              some { w with trace := w.trace ++ [Effect.showChatsList, Effect.hideLayer,
                  Effect.send (Request.contacts_DeleteContact user.id)
                    (some (RpcDone.deletedContact user.id))] }
            else none) := by
  refine ⟨showsOnlyConfirmBox_emit _ _ _ _ _, showsOnlyConfirmBox_emit _ _ _ _ _,
    showsOnlyConfirmBox_emit _ _ _ _ _, ?_, ?_, ?_⟩
  · cases hm : w.hasMain <;> simp [ConfirmCallback.invoke, World.emit, hm]
  · cases hm : w.hasMain <;> cases peer <;>
      simp [ConfirmCallback.invoke, World.emit, hm, PeerData.isUser, PeerData.asChat,
        PeerData.asChannel, PeerData.id]
  · cases hm : w.hasMain <;> simp [ConfirmCallback.invoke, World.emit, hm]

/-- C7: for every user (as it is when the block entry is triggered), every world
and every state of that user when the request completes: the action sends
exactly one request, `contacts.unblock` if the user was blocked and
`contacts.block` otherwise; on completion the status becomes `NotBlocked` if
the user was blocked and `Blocked` otherwise, so `isBlocked()` is the negation
of its value at invocation and the status is not `Unknown`. -/
theorem C7_block_toggle_flips (user atCompletion : UserData) (w : World) :
    blockUserAction user w
        = w.emit (Effect.send
            (if user.isBlocked then Request.contacts_Unblock user.id
              else Request.contacts_Block user.id)
            (some (RpcDone.blockDone user.id (!user.isBlocked))))
      ∧ (blockUserAction user w).trace.length = w.trace.length + 1
      ∧ (blockDone (!user.isBlocked) atCompletion).blockStatus
          = (if user.isBlocked then BlockStatus.NotBlocked else BlockStatus.Blocked)
      ∧ (blockDone (!user.isBlocked) atCompletion).isBlocked = !user.isBlocked
      ∧ (blockDone (!user.isBlocked) atCompletion).blockStatus ≠ BlockStatus.Unknown := by
  cases hb : user.isBlocked <;>
    simp only [blockUserAction, blockDone, hb] <;>
    simp [World.emit, UserData.setBlockStatus, UserData.isBlocked]

/-- C8, counterexample: calling `addSearch` twice on an empty menu leaves two
search entries, while one call leaves one; the two menus differ. -/
theorem C8_counterexample :
    (Filler.addSearch
        { controller := { activePeer := none }, peer := PeerData.user sampleUser,
          source := PeerMenuSource.ChatsList }
        (Filler.addSearch
          { controller := { activePeer := none }, peer := PeerData.user sampleUser,
            source := PeerMenuSource.ChatsList }
          { world := sampleWorld [] 5, menu := [] })).menu.length = 2
      ∧ (Filler.addSearch
          { controller := { activePeer := none }, peer := PeerData.user sampleUser,
            source := PeerMenuSource.ChatsList }
          { world := sampleWorld [] 5, menu := [] }).menu.length = 1
      ∧ (Filler.addSearch
          { controller := { activePeer := none }, peer := PeerData.user sampleUser,
            source := PeerMenuSource.ChatsList }
          (Filler.addSearch
            { controller := { activePeer := none }, peer := PeerData.user sampleUser,
              source := PeerMenuSource.ChatsList }
            { world := sampleWorld [] 5, menu := [] })).menu
        ≠ (Filler.addSearch
            { controller := { activePeer := none }, peer := PeerData.user sampleUser,
              source := PeerMenuSource.ChatsList }
            { world := sampleWorld [] 5, menu := [] }).menu := by
  decide

/-- The menu after `addBlockUser`: one block entry appended. -/
theorem addBlockUser_menu (f : Filler) (user : UserData) (s : FillState) :
    (f.addBlockUser user s).menu
      = s.menu ++ [{ text := blockText user, handler := Action.blockUser user,
                     lifetime := some PeerUpdateFlag.UserIsBlocked }] := by
  unfold Filler.addBlockUser
  split_ifs <;> rfl

/-- The step `addBlockUser` does not change who the logged-in user is. -/
theorem addBlockUser_self (f : Filler) (user : UserData) (s : FillState) :
    (f.addBlockUser user s).world.self = s.world.self := by
  unfold Filler.addBlockUser
  split_ifs <;> rfl

/-- The menu after `addUserActions` is the menu before followed by what the
step registers on an empty menu. -/
theorem addUserActions_menu (f : Filler) (user : UserData) (s : FillState) :
    (f.addUserActions user s).menu
      = s.menu ++ (f.addUserActions user { world := s.world, menu := [] }).menu := by
  unfold Filler.addUserActions
  simp only [FillState.addAction]
  split_ifs <;> simp [addBlockUser_menu]

/-- The step `addUserActions` does not change who the logged-in user is. -/
theorem addUserActions_self (f : Filler) (user : UserData) (s : FillState) :
    (f.addUserActions user s).world.self = s.world.self := by
  unfold Filler.addUserActions
  simp only [FillState.addAction]
  split_ifs <;> simp [addBlockUser_self]

/-- What `addUserActions` registers on an empty menu depends on the world only
through the logged-in user. -/
theorem addUserActions_entries_congr (f : Filler) (user : UserData) (w w' : World)
    (h : w'.self = w.self) :
    (f.addUserActions user { world := w', menu := [] }).menu
      = (f.addUserActions user { world := w, menu := [] }).menu := by
  unfold Filler.addUserActions
  simp only [FillState.addAction]
  split_ifs <;> simp_all [addBlockUser_menu]

/-- A step that appends the same non-empty list at each call appends each call. -/
theorem appendsEachCall_intro (m : FillState → FillState)
    (h : ∀ s : FillState, ∃ es : List MenuEntry,
      es ≠ [] ∧ (m s).menu = s.menu ++ es ∧ (m (m s)).menu = s.menu ++ es ++ es) :
    AppendsEachCall m := by
  intro s
  obtain ⟨es, h0, h1, h2⟩ := h s
  refine ⟨es, h0, h1, h2, ?_⟩
  rw [h1, h2]
  intro heq
  have hlen := congrArg List.length heq
  simp only [List.length_append] at hlen
  have hpos : 0 < es.length := List.length_pos.mpr h0
  omega

/-- The menu after `addChatActions` is the menu before followed by what the
step registers on an empty menu. -/
theorem addChatActions_menu (f : Filler) (chat : ChatData) (s : FillState) :
    (f.addChatActions chat s).menu
      = s.menu ++ (f.addChatActions chat { world := s.world, menu := [] }).menu := by
  unfold Filler.addChatActions
  simp only [FillState.addAction]
  split_ifs <;> simp

/-- The step `addChatActions` leaves the world alone. -/
theorem addChatActions_world (f : Filler) (chat : ChatData) (s : FillState) :
    (f.addChatActions chat s).world = s.world := by
  unfold Filler.addChatActions
  simp only [FillState.addAction]
  split_ifs <;> rfl

/-- The step `addChatActions` appends each call. -/
theorem addChatActions_appends (f : Filler) (chat : ChatData) :
    AppendsEachCall (f.addChatActions chat) := by
  apply appendsEachCall_intro
  intro s
  refine ⟨(f.addChatActions chat { world := s.world, menu := [] }).menu, ?_, ?_, ?_⟩
  · unfold Filler.addChatActions
    simp only [FillState.addAction]
    split_ifs <;> simp
  · exact addChatActions_menu f chat s
  · rw [addChatActions_menu f chat (f.addChatActions chat s), addChatActions_menu f chat s,
      addChatActions_world]

/-- The menu after `addChannelActions` is the menu before followed by what the
step registers on an empty menu. -/
theorem addChannelActions_menu (f : Filler) (channel : ChannelData) (s : FillState) :
    (f.addChannelActions channel s).menu
      = s.menu ++ (f.addChannelActions channel { world := s.world, menu := [] }).menu := by
  unfold Filler.addChannelActions
  simp only [FillState.addAction]
  split_ifs <;> simp

/-- The step `addChannelActions` leaves the world alone. -/
theorem addChannelActions_world (f : Filler) (channel : ChannelData) (s : FillState) :
    (f.addChannelActions channel s).world = s.world := by
  unfold Filler.addChannelActions
  simp only [FillState.addAction]
  split_ifs <;> rfl

/-- The step `addChannelActions` appends each call. -/
theorem addChannelActions_appends (f : Filler) (channel : ChannelData) :
    AppendsEachCall (f.addChannelActions channel) := by
  apply appendsEachCall_intro
  intro s
  refine ⟨(f.addChannelActions channel { world := s.world, menu := [] }).menu, ?_, ?_, ?_⟩
  · unfold Filler.addChannelActions
    simp only [FillState.addAction]
    split_ifs <;> simp
  · exact addChannelActions_menu f channel s
  · rw [addChannelActions_menu f channel (f.addChannelActions channel s),
      addChannelActions_menu f channel s, addChannelActions_world]

/-- The step `addUserActions` appends each call. -/
theorem addUserActions_appends (f : Filler) (user : UserData) :
    AppendsEachCall (f.addUserActions user) := by
  apply appendsEachCall_intro
  intro s
  refine ⟨(f.addUserActions user { world := s.world, menu := [] }).menu, ?_, ?_, ?_⟩
  · unfold Filler.addUserActions
    simp only [FillState.addAction]
    split_ifs <;> simp [addBlockUser_menu]
  · exact addUserActions_menu f user s
  · rw [addUserActions_menu f user (f.addUserActions user s), addUserActions_menu f user s,
      addUserActions_entries_congr f user s.world (f.addUserActions user s).world
        (addUserActions_self f user s)]

/-- The step `addBlockUser` appends each call. -/
theorem addBlockUser_appends (f : Filler) (user : UserData) :
    AppendsEachCall (f.addBlockUser user) := by
  apply appendsEachCall_intro
  intro s
  refine ⟨[{ text := blockText user, handler := Action.blockUser user,
             lifetime := some PeerUpdateFlag.UserIsBlocked }], by simp, ?_, ?_⟩
  · exact addBlockUser_menu f user s
  · rw [addBlockUser_menu, addBlockUser_menu]

/-- C8, amended: for every builder (peer snapshot, source), user, chat and
channel, each of the eight `addX` methods appends, at every call and whatever
the menu holds, the same non-empty list of entries; after two calls in a row the
menu is the menu after one call followed by those entries again, and so differs
from the menu after one call. -/
theorem C8_add_methods_append (f : Filler) (user : UserData) (chat : ChatData)
    (channel : ChannelData) :
    AppendsEachCall f.addPinToggle
      ∧ AppendsEachCall f.addInfo
      ∧ AppendsEachCall f.addNotifications
      ∧ AppendsEachCall f.addSearch
      ∧ AppendsEachCall (f.addUserActions user)
      ∧ AppendsEachCall (f.addBlockUser user)
      ∧ AppendsEachCall (f.addChatActions chat)
      ∧ AppendsEachCall (f.addChannelActions channel) := by
  refine ⟨?_, ?_, ?_, ?_, addUserActions_appends f user, addBlockUser_appends f user,
    addChatActions_appends f chat, addChannelActions_appends f channel⟩
  all_goals
    apply appendsEachCall_intro
    intro s
    exact ⟨[_], by simp, rfl, rfl⟩

/-! ## Theorems: the pin toggle -/

/-- The store keeps its length when a pinned flag is written. -/
theorem length_setPinnedAt (l : List History) (i : Nat) (b : Bool) :
    (setPinnedAt l i b).length = l.length := by
  induction l generalizing i with
  | nil => rfl
  | cons h hs ih =>
    cases i with
    | zero => rfl
    | succ i => simp [setPinnedAt, ih]

/-- Reading the store after a pinned flag was written. -/
theorem getElem?_setPinnedAt (l : List History) (i j : Nat) (b : Bool) :
    (setPinnedAt l i b)[j]? =
      if j = i then (l[i]?).map (fun h => { h with pinned := b }) else l[j]? := by
  induction l generalizing i j with
  | nil => simp [setPinnedAt]
  | cons h hs ih =>
    cases i with
    | zero =>
      cases j with
      | zero => simp [setPinnedAt]
      | succ j => simp [setPinnedAt]
    | succ i =>
      cases j with
      | zero => simp [setPinnedAt]
      | succ j => simp [setPinnedAt, ih]

/-- Counting pinned histories after a pinned flag was written. -/
theorem countP_setPinnedAt (l : List History) (i : Nat) (b : Bool) (hi : i < l.length) :
    (setPinnedAt l i b).countP (fun h => h.pinned)
        + (if (match l[i]? with
               | some h => h.pinned
               | none => false) = true then 1 else 0)
      = l.countP (fun h => h.pinned) + (if b = true then 1 else 0) := by
  induction l generalizing i with
  | nil => simp at hi
  | cons h hs ih =>
    cases i with
    | zero =>
      simp only [setPinnedAt, List.countP_cons, List.getElem?_cons_zero]
      omega
    | succ i =>
      have hi' : i < hs.length := by simpa using hi
      have := ih i hi'
      simp only [setPinnedAt, List.countP_cons, List.getElem?_cons_succ]
      omega

/-- The pinned flag of a history after `setPinnedDialog` on a loaded history. -/
theorem isPinnedDialog_setPinnedDialog (w : World) (i j : Nat) (b : Bool)
    (hi : i < w.histories.length) :
    isPinnedDialog (setPinnedDialog w i b) j = if j = i then b else isPinnedDialog w j := by
  unfold isPinnedDialog setPinnedDialog
  simp only [getElem?_setPinnedAt]
  by_cases hji : j = i
  · subst hji
    simp [List.getElem?_eq_getElem hi]
  · simp [hji]

/-- The pinned count after `setPinnedDialog` on a loaded history. -/
theorem pinnedCount_setPinnedDialog (w : World) (i : Nat) (b : Bool)
    (hi : i < w.histories.length) :
    pinnedCount (setPinnedDialog w i b) + (if isPinnedDialog w i = true then 1 else 0)
      = pinnedCount w + (if b = true then 1 else 0) :=
  countP_setPinnedAt w.histories i b hi

/-- The step `setPinnedDialog` keeps the number of loaded histories. -/
theorem length_setPinnedDialog (w : World) (i : Nat) (b : Bool) :
    (setPinnedDialog w i b).histories.length = w.histories.length :=
  length_setPinnedAt w.histories i b

/-- The world with one more, unpinned, history at the end of the store. -/
theorem isPinnedDialog_append_unpinned (w : World) (h : History) (hp : h.pinned = false)
    (j : Nat) :
    isPinnedDialog { w with histories := w.histories ++ [h] } j = isPinnedDialog w j := by
  unfold isPinnedDialog
  simp only [List.getElem?_append]
  by_cases hj : j < w.histories.length
  · simp [hj]
  · simp only [hj, if_false]
    have hnone : w.histories[j]? = none := List.getElem?_eq_none (by omega)
    rw [hnone]
    cases hk : j - w.histories.length with
    | zero => simp [hp]
    | succ k => simp

/-- The first match of a search depends only on the test at the listed items. -/
theorem find?_congr_mem {α : Type} (l : List α) (p q : α → Bool)
    (h : ∀ x ∈ l, p x = q x) : l.find? p = l.find? q := by
  induction l with
  | nil => rfl
  | cons a as ih =>
    have ha : p a = q a := h a (List.mem_cons_self a as)
    have has : ∀ x ∈ as, p x = q x := fun x hx => h x (List.mem_cons_of_mem a hx)
    simp only [List.find?_cons, ha, ih has]

/-- Appending an unpinned history does not change the pinned order. -/
theorem getPinnedOrder_append_unpinned (w : World) (h : History) (hp : h.pinned = false) :
    getPinnedOrder { w with histories := w.histories ++ [h] } = getPinnedOrder w := by
  unfold getPinnedOrder
  simp only [List.length_append, List.length_singleton, List.range_succ, List.filter_append]
  have hlast : isPinnedDialog { w with histories := w.histories ++ [h] } w.histories.length
      = false := by
    rw [isPinnedDialog_append_unpinned w h hp]
    unfold isPinnedDialog
    rw [List.getElem?_eq_none (Nat.le_refl _)]
  have hcongr : List.filter (fun i => isPinnedDialog { w with histories := w.histories ++ [h] } i)
      (List.range w.histories.length)
      = List.filter (fun i => isPinnedDialog w i) (List.range w.histories.length) := by
    apply List.filter_congr
    intro x _
    exact isPinnedDialog_append_unpinned w h hp x
  rw [hcongr]
  simp [hlast]

/-- Every history in the pinned order is loaded and pinned. -/
theorem mem_getPinnedOrder (w : World) (i : Nat) (hi : i ∈ getPinnedOrder w) :
    i < w.histories.length ∧ isPinnedDialog w i = true := by
  unfold getPinnedOrder at hi
  rw [List.mem_filter, List.mem_range] at hi
  exact hi

/-- Appending an unpinned history does not change what `FindWastedPin` finds. -/
theorem FindWastedPin_append_unpinned (w : World) (h : History) (hp : h.pinned = false) :
    FindWastedPin { w with histories := w.histories ++ [h] } = FindWastedPin w := by
  unfold FindWastedPin
  simp only [getPinnedOrder_append_unpinned w h hp]
  apply find?_congr_mem
  intro x hx
  have hlt := (mem_getPinnedOrder w x hx).1
  unfold isWastedPin
  simp only [List.getElem?_append_left hlt]

/-- A wasted pin found by `FindWastedPin` is a loaded, pinned history. -/
theorem FindWastedPin_some (w : World) (i : Nat) (h : FindWastedPin w = some i) :
    i < w.histories.length ∧ isPinnedDialog w i = true ∧ isWastedPin w i = true := by
  unfold FindWastedPin at h
  have hmem := List.mem_of_find?_eq_some h
  have hp := List.find?_some h
  exact ⟨(mem_getPinnedOrder w i hmem).1, (mem_getPinnedOrder w i hmem).2, hp⟩

/-- Writing a pinned flag does not move the first history of a peer. -/
theorem findIdx_setPinnedAt (l : List History) (i : Nat) (b : Bool) (id : Nat) :
    (setPinnedAt l i b).findIdx (fun h => h.peer.id == id)
      = l.findIdx (fun h => h.peer.id == id) := by
  induction l generalizing i with
  | nil => rfl
  | cons h hs ih =>
    cases i with
    | zero => simp [setPinnedAt, List.findIdx_cons]
    | succ i => simp [setPinnedAt, List.findIdx_cons, ih]

/-- The step `setPinnedDialog` does not change which history a peer has. -/
theorem historyLoaded_setPinnedDialog (w : World) (i : Nat) (b : Bool) (peer : PeerData) :
    App.historyLoaded (setPinnedDialog w i b) peer = App.historyLoaded w peer := by
  unfold App.historyLoaded setPinnedDialog
  simp only [findIdx_setPinnedAt, length_setPinnedAt]

/-- A loaded history is a position of the store. -/
theorem historyLoaded_lt (w : World) (peer : PeerData) (i : Nat)
    (h : App.historyLoaded w peer = some i) : i < w.histories.length := by
  unfold App.historyLoaded at h
  simp only at h
  split_ifs at h with hlt
  cases h
  exact hlt

/-- What `App::history` returns, and what it leaves unchanged. -/
theorem history_facts (w : World) (peer : PeerData) :
    (App.history w peer).2 < (App.history w peer).1.histories.length
      ∧ App.historyLoaded (App.history w peer).1 peer = some (App.history w peer).2
      ∧ (∀ j, isPinnedDialog (App.history w peer).1 j = isPinnedDialog w j)
      ∧ isPinnedDialog (App.history w peer).1 (App.history w peer).2 = targetPinned w peer
      ∧ pinnedCount (App.history w peer).1 = pinnedCount w
      ∧ getPinnedOrder (App.history w peer).1 = getPinnedOrder w
      ∧ FindWastedPin (App.history w peer).1 = FindWastedPin w
      ∧ (App.history w peer).1.trace = w.trace
      ∧ (App.history w peer).1.pinnedDialogsCountMax = w.pinnedDialogsCountMax
      ∧ (App.history w peer).1.hasMain = w.hasMain := by
  unfold App.history targetPinned
  cases hl : App.historyLoaded w peer with
  | some i =>
    exact ⟨historyLoaded_lt w peer i hl, hl, fun _ => rfl, rfl, rfl, rfl, rfl, rfl, rfl, rfl⟩
  | none =>
    have hp : ({ peer := peer, pinned := false, inChatList := false } : History).pinned
        = false := rfl
    have hge : w.histories.length
        ≤ w.histories.findIdx (fun h => h.peer.id == peer.id) := by
      unfold App.historyLoaded at hl
      simp only at hl
      split_ifs at hl with hlt
      omega
    have hpin := isPinnedDialog_append_unpinned w _ hp
    refine ⟨by simp, ?_, hpin, ?_, ?_, getPinnedOrder_append_unpinned w _ hp,
      FindWastedPin_append_unpinned w _ hp, rfl, rfl, rfl⟩
    · unfold App.historyLoaded
      have hnot : ¬ (w.histories.findIdx (fun h => h.peer.id == peer.id)
          < w.histories.length) := by omega
      simp [List.findIdx_append, hnot, List.findIdx_cons]
    · rw [hpin]
      unfold isPinnedDialog
      rw [List.getElem?_eq_none (Nat.le_refl _)]
    · simp [pinnedCount]

/-- The body of `pinToggle`, written over the result of `App::history`. -/
theorem pinToggle_eq (peer : PeerData) (w : World) :
    pinToggle peer w =
      (if (!isPinnedDialog (App.history w peer).1 (App.history w peer).2
            && decide (pinnedCount (App.history w peer).1
                ≥ (App.history w peer).1.pinnedDialogsCountMax)) = true then
        match FindWastedPin (App.history w peer).1 with
        | some wasted =>
          (setPinnedDialog (setPinnedDialog (App.history w peer).1 wasted false)
            (App.history w peer).2
            (!isPinnedDialog (App.history w peer).1 (App.history w peer).2)).emit
              Effect.savePinnedToServer
        | none =>
          (App.history w peer).1.emit (Effect.show (Box.InformBox
            (Text.counted LangKey.lng_error_pinned_max
              (App.history w peer).1.pinnedDialogsCountMax)))
      else
        if (!isPinnedDialog (App.history w peer).1 (App.history w peer).2) = true then
          if (App.history w peer).1.hasMain = true then
            (((setPinnedDialog (App.history w peer).1 (App.history w peer).2
              (!isPinnedDialog (App.history w peer).1 (App.history w peer).2)).emit
                (Effect.send (Request.messages_ToggleDialogPin
                  (!isPinnedDialog (App.history w peer).1 (App.history w peer).2) peer.id)
                  none)).emit Effect.dialogsToUp)
          else
            ((setPinnedDialog (App.history w peer).1 (App.history w peer).2
              (!isPinnedDialog (App.history w peer).1 (App.history w peer).2)).emit
                (Effect.send (Request.messages_ToggleDialogPin
                  (!isPinnedDialog (App.history w peer).1 (App.history w peer).2) peer.id)
                  none))
        else
          ((setPinnedDialog (App.history w peer).1 (App.history w peer).2
            (!isPinnedDialog (App.history w peer).1 (App.history w peer).2)).emit
              (Effect.send (Request.messages_ToggleDialogPin
                (!isPinnedDialog (App.history w peer).1 (App.history w peer).2) peer.id)
                none))) := by
  rfl

/-- Recording an effect does not touch the pinned flags. -/
theorem isPinnedDialog_emit (w : World) (e : Effect) (i : Nat) :
    isPinnedDialog (w.emit e) i = isPinnedDialog w i := rfl

/-- Recording an effect does not touch the pinned count. -/
theorem pinnedCount_emit (w : World) (e : Effect) : pinnedCount (w.emit e) = pinnedCount w := rfl

/-- Recording an effect does not touch the pinned order. -/
theorem getPinnedOrder_emit (w : World) (e : Effect) :
    getPinnedOrder (w.emit e) = getPinnedOrder w := rfl

/-- Recording an effect does not change which history a peer has. -/
theorem historyLoaded_emit (w : World) (e : Effect) (peer : PeerData) :
    App.historyLoaded (w.emit e) peer = App.historyLoaded w peer := rfl

/-- C2: for every peer and world in which the peer's history is not pinned, the
pinned count equals `PinnedDialogsCountMax` and `FindWastedPin` finds nothing,
the pin toggle appends exactly one effect to the trace, the `Ui::show` of the
inform box with the limit error (so no `ToggleDialogPin` request is sent and the
pinned order is not saved), and no history's pinned flag, the pinned count or
the pinned order changes. -/
theorem C2_pin_limit_error (peer : PeerData) (w : World)
    (hnot : targetPinned w peer = false)
    (hmax : pinnedCount w = w.pinnedDialogsCountMax)
    (hwasted : FindWastedPin w = none) :
    (pinToggle peer w).trace
        = w.trace ++ [Effect.show (Box.InformBox
            (Text.counted LangKey.lng_error_pinned_max w.pinnedDialogsCountMax))]
      ∧ (∀ i, isPinnedDialog (pinToggle peer w) i = isPinnedDialog w i)
      ∧ pinnedCount (pinToggle peer w) = pinnedCount w
      ∧ getPinnedOrder (pinToggle peer w) = getPinnedOrder w
      ∧ targetPinned (pinToggle peer w) peer = false := by
  obtain ⟨_, hload, hpin, htp, hcnt, hord, hfw, htr, hmx, _⟩ := history_facts w peer
  have hcond : (!isPinnedDialog (App.history w peer).1 (App.history w peer).2
      && decide (pinnedCount (App.history w peer).1
          ≥ (App.history w peer).1.pinnedDialogsCountMax)) = true := by
    rw [htp, hnot, hcnt, hmx, hmax]
    simp
  rw [pinToggle_eq, if_pos hcond, hfw, hwasted]
  refine ⟨?_, ?_, ?_, ?_, ?_⟩
  · simp only [World.emit, htr, hmx]
  · intro i
    rw [isPinnedDialog_emit, hpin]
  · rw [pinnedCount_emit, hcnt]
  · rw [getPinnedOrder_emit, hord]
  · unfold targetPinned
    rw [historyLoaded_emit, hload]
    simp only [isPinnedDialog_emit]
    rw [htp, hnot]

/-- C2 at a concrete state: limit 1, one pinned user history, the target user
has no history yet; the toggle only shows the limit error. -/
theorem C2_pin_limit_error_witness :
    (pinToggle (PeerData.user sampleUser) fullWorld).trace
        = fullWorld.trace ++ [Effect.show (Box.InformBox
            (Text.counted LangKey.lng_error_pinned_max fullWorld.pinnedDialogsCountMax))]
      ∧ isPinnedDialog (pinToggle (PeerData.user sampleUser) fullWorld) 0 = true
      ∧ targetPinned (pinToggle (PeerData.user sampleUser) fullWorld)
          (PeerData.user sampleUser) = false :=
  have h := C2_pin_limit_error (PeerData.user sampleUser) fullWorld
    (by decide) (by decide) (by decide)
  ⟨h.1, by decide, h.2.2.2.2⟩

/-- Unpinning a pinned history and pinning an unpinned one: the count is kept,
the two flags are swapped and every other flag is left alone. -/
theorem evict_and_pin (w : World) (j t : Nat)
    (hj : j < w.histories.length) (hjp : isPinnedDialog w j = true)
    (ht : t < w.histories.length) (htp : isPinnedDialog w t = false) :
    pinnedCount (setPinnedDialog (setPinnedDialog w j false) t true) = pinnedCount w
      ∧ isPinnedDialog (setPinnedDialog (setPinnedDialog w j false) t true) j = false
      ∧ isPinnedDialog (setPinnedDialog (setPinnedDialog w j false) t true) t = true
      ∧ (∀ i, i ≠ j → i ≠ t →
          isPinnedDialog (setPinnedDialog (setPinnedDialog w j false) t true) i
            = isPinnedDialog w i) := by
  have hne : j ≠ t := by
    intro h
    rw [h, htp] at hjp
    cases hjp
  have ht' : t < (setPinnedDialog w j false).histories.length := by
    rw [length_setPinnedDialog]
    exact ht
  have h1 := pinnedCount_setPinnedDialog w j false hj
  have h2 := pinnedCount_setPinnedDialog (setPinnedDialog w j false) t true ht'
  have hmid : isPinnedDialog (setPinnedDialog w j false) t = false := by
    rw [isPinnedDialog_setPinnedDialog w j t false hj, if_neg (Ne.symm hne), htp]
  rw [hmid] at h2
  rw [hjp] at h1
  simp only [if_true, Bool.false_eq_true, if_false] at h1 h2
  refine ⟨by omega, ?_, ?_, ?_⟩
  · rw [isPinnedDialog_setPinnedDialog _ t j true ht', if_neg hne,
      isPinnedDialog_setPinnedDialog w j j false hj, if_pos rfl]
  · rw [isPinnedDialog_setPinnedDialog _ t t true ht', if_pos rfl]
  · intro i hij hit
    rw [isPinnedDialog_setPinnedDialog _ t i true ht', if_neg hit,
      isPinnedDialog_setPinnedDialog w j i false hj, if_neg hij]

/-- C3: for every peer and world in which the pinned count is at most
`PinnedDialogsCountMax`, the pinned count after the pin toggle (whichever branch
it takes) is still at most `PinnedDialogsCountMax`, and the limit is unchanged. -/
theorem C3_pinned_count_bounded (peer : PeerData) (w : World)
    (h : pinnedCount w ≤ w.pinnedDialogsCountMax) :
    pinnedCount (pinToggle peer w) ≤ w.pinnedDialogsCountMax
      ∧ (pinToggle peer w).pinnedDialogsCountMax = w.pinnedDialogsCountMax := by
  obtain ⟨hlt, _, _, _, hcnt, _, _, _, hmx, _⟩ := history_facts w peer
  rw [pinToggle_eq]
  by_cases hcond : (!isPinnedDialog (App.history w peer).1 (App.history w peer).2
      && decide (pinnedCount (App.history w peer).1
          ≥ (App.history w peer).1.pinnedDialogsCountMax)) = true
  · rw [if_pos hcond]
    have hp : isPinnedDialog (App.history w peer).1 (App.history w peer).2 = false := by
      simp only [Bool.and_eq_true, Bool.not_eq_true'] at hcond
      exact hcond.1
    cases hfw : FindWastedPin (App.history w peer).1 with
    | none =>
      simp only [pinnedCount_emit, hcnt]
      exact ⟨h, hmx⟩
    | some j =>
      obtain ⟨hj, hjp, _⟩ := FindWastedPin_some _ j hfw
      have hswap := (evict_and_pin _ j _ hj hjp hlt hp).1
      simp only [pinnedCount_emit, hp, Bool.not_false, hswap, hcnt]
      exact ⟨h, hmx⟩
  · rw [if_neg hcond]
    have hset := pinnedCount_setPinnedDialog (App.history w peer).1 (App.history w peer).2
      (!isPinnedDialog (App.history w peer).1 (App.history w peer).2) hlt
    cases hp : isPinnedDialog (App.history w peer).1 (App.history w peer).2
    · have hlt' : pinnedCount w < w.pinnedDialogsCountMax := by
        rw [hp, hcnt, hmx] at hcond
        simpa using hcond
      rw [hp] at hset
      simp only [Bool.not_false, Bool.false_eq_true, if_false, if_true] at hset
      simp only [Bool.not_false, if_true]
      constructor
      · split_ifs <;> simp only [pinnedCount_emit] <;> omega
      · split_ifs <;> exact hmx
    · rw [hp] at hset
      simp only [Bool.not_true, Bool.false_eq_true, if_false, if_true] at hset
      simp only [Bool.not_true, Bool.false_eq_true, if_false, pinnedCount_emit]
      exact ⟨by omega, hmx⟩

/-- C3 at a concrete state: at the limit 1 with nothing to evict, the toggle on
an unpinned peer leaves the pinned count at 1. -/
theorem C3_pinned_count_bounded_witness :
    pinnedCount (pinToggle (PeerData.user sampleUser) fullWorld) ≤ 1 :=
  (C3_pinned_count_bounded (PeerData.user sampleUser) fullWorld (by decide)).1

/-- C9, counterexample: the limit is 1, the only pinned history is a deactivated
chat that is still in the chat list, and the target user is not pinned. The
hypotheses of the specification hold (target unpinned, count at the limit, a deactivated
chat in the pinned order), but `FindWastedPin` finds nothing: the toggle shows
the error box, the chat stays pinned, the target stays unpinned and nothing is
saved. -/
theorem C9_counterexample :
    targetPinned listedDeadChatWorld (PeerData.user sampleUser) = false
      ∧ pinnedCount listedDeadChatWorld ≥ listedDeadChatWorld.pinnedDialogsCountMax
      ∧ (getPinnedOrder listedDeadChatWorld).any
          (fun i => isDeactivatedPinnedChat listedDeadChatWorld i) = true
      ∧ FindWastedPin listedDeadChatWorld = none
      ∧ (pinToggle (PeerData.user sampleUser) listedDeadChatWorld).trace
          = [Effect.show (Box.InformBox (Text.counted LangKey.lng_error_pinned_max 1))]
      ∧ isPinnedDialog (pinToggle (PeerData.user sampleUser) listedDeadChatWorld) 0 = true
      ∧ targetPinned (pinToggle (PeerData.user sampleUser) listedDeadChatWorld)
          (PeerData.user sampleUser) = false := by
  decide

/-- At or above the limit with nothing to evict, the toggle on an unpinned peer
only shows the limit error: no flag, count or order changes. -/
theorem pinToggle_overflow_error (peer : PeerData) (w : World)
    (hnot : targetPinned w peer = false)
    (hmax : pinnedCount w ≥ w.pinnedDialogsCountMax)
    (hwasted : FindWastedPin w = none) :
    (pinToggle peer w).trace
        = w.trace ++ [Effect.show (Box.InformBox
            (Text.counted LangKey.lng_error_pinned_max w.pinnedDialogsCountMax))]
      ∧ (∀ i, isPinnedDialog (pinToggle peer w) i = isPinnedDialog w i)
      ∧ pinnedCount (pinToggle peer w) = pinnedCount w
      ∧ getPinnedOrder (pinToggle peer w) = getPinnedOrder w
      ∧ targetPinned (pinToggle peer w) peer = false := by
  obtain ⟨_, hload, hpin, htp, hcnt, hord, hfw, htr, hmx, _⟩ := history_facts w peer
  have hcond : (!isPinnedDialog (App.history w peer).1 (App.history w peer).2
      && decide (pinnedCount (App.history w peer).1
          ≥ (App.history w peer).1.pinnedDialogsCountMax)) = true := by
    rw [htp, hnot, hcnt, hmx]
    simpa using hmax
  rw [pinToggle_eq, if_pos hcond, hfw, hwasted]
  refine ⟨?_, ?_, ?_, ?_, ?_⟩
  · simp only [World.emit, htr, hmx]
  · intro i
    rw [isPinnedDialog_emit, hpin]
  · rw [pinnedCount_emit, hcnt]
  · rw [getPinnedOrder_emit, hord]
  · unfold targetPinned
    rw [historyLoaded_emit, hload]
    simp only [isPinnedDialog_emit]
    rw [htp, hnot]

/-- C9, amended: a wasted pin is a pinned history of a deactivated chat that is
not in the chat list. For every peer and world in which the peer's history is
not pinned and the pinned count is at least `PinnedDialogsCountMax`:
if the pinned order contains a wasted pin, the pin toggle unpins the first
wasted pin of the pinned order, pins the peer's history, changes no other
pinned flag (so a pinned deactivated chat that is still listed stays pinned),
appends to the trace only `savePinnedToServer` (no error box, no request), and
the pinned count is unchanged; if the pinned order contains no wasted pin, the
pin toggle appends to the trace only the `Ui::show` of the limit error box
(nothing evicted, nothing saved, no request) and no pinned flag, the pinned
count or the pinned order changes. -/
theorem C9_wasted_pin_evicted (peer : PeerData) (w : World)
    (hnot : targetPinned w peer = false)
    (hmax : pinnedCount w ≥ w.pinnedDialogsCountMax) :
    ((∃ i ∈ getPinnedOrder w, isWastedPin w i = true) →
      ∃ (wasted : Nat) (before after : List Nat),
        getPinnedOrder w = before ++ wasted :: after
          ∧ (∀ j ∈ before, isWastedPin w j = false)
          ∧ isWastedPin w wasted = true
          ∧ isPinnedDialog w wasted = true
          ∧ isPinnedDialog (pinToggle peer w) wasted = false
          ∧ App.historyLoaded (pinToggle peer w) peer = some (App.history w peer).2
          ∧ targetPinned (pinToggle peer w) peer = true
          ∧ (∀ i, i ≠ wasted → i ≠ (App.history w peer).2 →
              isPinnedDialog (pinToggle peer w) i = isPinnedDialog w i)
          ∧ (pinToggle peer w).trace = w.trace ++ [Effect.savePinnedToServer]
          ∧ pinnedCount (pinToggle peer w) = pinnedCount w)
      ∧ ((∀ i ∈ getPinnedOrder w, isWastedPin w i = false) →
          (pinToggle peer w).trace
              = w.trace ++ [Effect.show (Box.InformBox
                  (Text.counted LangKey.lng_error_pinned_max w.pinnedDialogsCountMax))]
            ∧ (∀ i, isPinnedDialog (pinToggle peer w) i = isPinnedDialog w i)
            ∧ pinnedCount (pinToggle peer w) = pinnedCount w
            ∧ getPinnedOrder (pinToggle peer w) = getPinnedOrder w
            ∧ targetPinned (pinToggle peer w) peer = false) := by
  refine ⟨fun hex => ?_, fun hnone => ?_⟩
  · obtain ⟨hlt, hload, hpin, htp, hcnt, hord, hfw, htr, hmx, _⟩ := history_facts w peer
    have hsome : (FindWastedPin w).isSome = true := by
      unfold FindWastedPin
      rw [List.find?_isSome]
      obtain ⟨i, hi, hwi⟩ := hex
      exact ⟨i, hi, hwi⟩
    obtain ⟨wasted, hwasted⟩ := Option.isSome_iff_exists.mp hsome
    have hfind := hwasted
    unfold FindWastedPin at hfind
    simp only at hfind
    rw [List.find?_eq_some] at hfind
    obtain ⟨hwp, before, after, hsplit, hbefore⟩ := hfind
    have hp : isPinnedDialog (App.history w peer).1 (App.history w peer).2 = false := by
      rw [htp, hnot]
    have hcond : (!isPinnedDialog (App.history w peer).1 (App.history w peer).2
        && decide (pinnedCount (App.history w peer).1
            ≥ (App.history w peer).1.pinnedDialogsCountMax)) = true := by
      rw [hp, hcnt, hmx]
      simpa using hmax
    have hfw1 : FindWastedPin (App.history w peer).1 = some wasted := by rw [hfw, hwasted]
    obtain ⟨hj, hjp, _⟩ := FindWastedPin_some _ wasted hfw1
    obtain ⟨hc, hw0, ht1, hothers⟩ := evict_and_pin _ wasted _ hj hjp hlt hp
    have hres : pinToggle peer w
        = (setPinnedDialog (setPinnedDialog (App.history w peer).1 wasted false)
            (App.history w peer).2 true).emit Effect.savePinnedToServer := by
      rw [pinToggle_eq, if_pos hcond, hfw1, hp]
      rfl
    have hload' : App.historyLoaded (pinToggle peer w) peer
        = some (App.history w peer).2 := by
      rw [hres, historyLoaded_emit, historyLoaded_setPinnedDialog,
        historyLoaded_setPinnedDialog, hload]
    refine ⟨wasted, before, after, hsplit, ?_, hwp, ?_, ?_, hload', ?_, ?_, ?_, ?_⟩
    · intro j hj'
      have := hbefore j hj'
      simpa using this
    · rw [← hpin wasted]
      exact hjp
    · rw [hres, isPinnedDialog_emit]
      exact hw0
    · unfold targetPinned
      rw [hload']
      simp only
      rw [hres, isPinnedDialog_emit]
      exact ht1
    · intro i hiw hit
      rw [hres, isPinnedDialog_emit, hothers i hiw hit, hpin]
    · rw [hres]
      simp only [World.emit, setPinnedDialog, htr]
    · rw [hres, pinnedCount_emit, hc, hcnt]
  · have hwasted : FindWastedPin w = none := by
      unfold FindWastedPin
      simp only
      rw [List.find?_eq_none]
      intro x hx
      rw [hnone x hx]
      exact Bool.false_ne_true
    exact pinToggle_overflow_error peer w hnot hmax hwasted

/-- C9, amended, at concrete states. Limit 1, the only pin is a deactivated chat
outside the chat list: the toggle on an unpinned user evicts it, pins the user
and saves the order. Limit 1, two pinned users (count above the limit), nothing
to evict: the toggle on an unpinned user only shows the limit error and both
pins stay. -/
theorem C9_wasted_pin_evicted_witness :
    (isPinnedDialog (pinToggle (PeerData.user sampleUser) wastedPinWorld) 0 = false
      ∧ targetPinned (pinToggle (PeerData.user sampleUser) wastedPinWorld)
          (PeerData.user sampleUser) = true
      ∧ (pinToggle (PeerData.user sampleUser) wastedPinWorld).trace
          = [Effect.savePinnedToServer])
      ∧ (pinnedCount overfullWorld = 2
        ∧ overfullWorld.pinnedDialogsCountMax = 1
        ∧ (pinToggle (PeerData.user sampleUser) overfullWorld).trace
            = [Effect.show (Box.InformBox (Text.counted LangKey.lng_error_pinned_max 1))]
        ∧ pinnedCount (pinToggle (PeerData.user sampleUser) overfullWorld) = 2
        ∧ targetPinned (pinToggle (PeerData.user sampleUser) overfullWorld)
            (PeerData.user sampleUser) = false) := by
  have h1 := (C9_wasted_pin_evicted (PeerData.user sampleUser) wastedPinWorld
    (by decide) (by decide)).1 ⟨0, by decide, by decide⟩
  have h2 := (C9_wasted_pin_evicted (PeerData.user sampleUser) overfullWorld
    (by decide) (by decide)).2 (by decide)
  obtain ⟨_, _, _, _, _, _, _, _, _, htarget, _, htrace, _⟩ := h1
  obtain ⟨htrace2, _, hcount2, _, htarget2⟩ := h2
  refine ⟨⟨by decide, htarget, htrace⟩, by decide, rfl, htrace2, ?_, htarget2⟩
  rw [hcount2]
  decide

/-- The pinned state shown for a peer with a loaded history is that history's flag. -/
theorem targetPinned_of_loaded (w : World) (peer : PeerData) (t : Nat)
    (h : App.historyLoaded w peer = some t) : targetPinned w peer = isPinnedDialog w t := by
  unfold targetPinned
  rw [h]

/-- C10: for every peer and world in which the peer's history is pinned
(whatever the pinned count) or the pinned count is below
`PinnedDialogsCountMax`, the pin toggle sets the pinned flag of the peer's
history to the negation of its previous value, changes no other history's flag,
sends exactly one `ToggleDialogPin` request whose pinned flag is the new state,
and shows no box: besides the request the trace gains only `dialogsToUp`, and
only when the history was pinned by the toggle and `App::main()` exists. -/
theorem C10_plain_flip (peer : PeerData) (w : World)
    (h : targetPinned w peer = true ∨ pinnedCount w < w.pinnedDialogsCountMax) :
    App.historyLoaded (pinToggle peer w) peer = some (App.history w peer).2
      ∧ targetPinned (pinToggle peer w) peer = !targetPinned w peer
      ∧ (∀ i, i ≠ (App.history w peer).2 →
          isPinnedDialog (pinToggle peer w) i = isPinnedDialog w i)
      ∧ (pinToggle peer w).trace
          = w.trace
            ++ [Effect.send
                  (Request.messages_ToggleDialogPin (!targetPinned w peer) peer.id) none]
            ++ (if (!targetPinned w peer && w.hasMain) = true then [Effect.dialogsToUp]
                else []) := by
  obtain ⟨hlt, hload, hpin, htp, hcnt, _, _, htr, hmx, hmain⟩ := history_facts w peer
  have hcond : ¬ ((!isPinnedDialog (App.history w peer).1 (App.history w peer).2
      && decide (pinnedCount (App.history w peer).1
          ≥ (App.history w peer).1.pinnedDialogsCountMax)) = true) := by
    rw [htp, hcnt, hmx]
    rcases h with h | h
    · simp [h]
    · simp only [Bool.and_eq_true, decide_eq_true_eq, not_and]
      intro _
      omega
  have hres : pinToggle peer w
      = (if (!targetPinned w peer && w.hasMain) = true then
          ((setPinnedDialog (App.history w peer).1 (App.history w peer).2
            (!targetPinned w peer)).emit
              (Effect.send (Request.messages_ToggleDialogPin (!targetPinned w peer) peer.id)
                none)).emit Effect.dialogsToUp
        else
          (setPinnedDialog (App.history w peer).1 (App.history w peer).2
            (!targetPinned w peer)).emit
              (Effect.send (Request.messages_ToggleDialogPin (!targetPinned w peer) peer.id)
                none)) := by
    rw [pinToggle_eq, if_neg hcond, htp, hmain]
    cases targetPinned w peer <;> cases w.hasMain <;> rfl
  have hflag : ∀ i, isPinnedDialog (pinToggle peer w) i
      = isPinnedDialog (setPinnedDialog (App.history w peer).1 (App.history w peer).2
          (!targetPinned w peer)) i := by
    intro i
    rw [hres]
    split_ifs <;> rfl
  have hload' : App.historyLoaded (pinToggle peer w) peer = some (App.history w peer).2 := by
    rw [hres]
    split_ifs <;>
      simp only [historyLoaded_emit, historyLoaded_setPinnedDialog, hload]
  refine ⟨hload', ?_, ?_, ?_⟩
  · rw [targetPinned_of_loaded _ _ _ hload', hflag,
      isPinnedDialog_setPinnedDialog _ _ _ _ hlt, if_pos rfl]
  · intro i hi
    rw [hflag, isPinnedDialog_setPinnedDialog _ _ _ _ hlt, if_neg hi, hpin]
  · rw [hres]
    split_ifs <;> simp [World.emit, setPinnedDialog, htr]

/-- C10 at two concrete states: unpinning at the limit (limit 1, the target is
the only pin) is not rejected and sends an unpin request; pinning below the
limit (limit 5, nothing pinned) sends a pin request and raises the dialogs. -/
theorem C10_plain_flip_witness :
    (pinToggle (PeerData.user { sampleUser with id := 3 }) fullWorld).trace
        = [Effect.send (Request.messages_ToggleDialogPin false 3) none]
      ∧ targetPinned (pinToggle (PeerData.user { sampleUser with id := 3 }) fullWorld)
          (PeerData.user { sampleUser with id := 3 }) = false
      ∧ (pinToggle (PeerData.user sampleUser) (sampleWorld [] 5)).trace
          = [Effect.send (Request.messages_ToggleDialogPin true 1) none, Effect.dialogsToUp] :=
  have h1 := C10_plain_flip (PeerData.user { sampleUser with id := 3 }) fullWorld
    (Or.inl (by decide))
  have h2 := C10_plain_flip (PeerData.user sampleUser) (sampleWorld [] 5)
    (Or.inr (by decide))
  ⟨h1.2.2.2, h1.2.1, h2.2.2.2⟩

end Window
